import Mathlib

/-
Shallow embedding of src/yamlcls.py: a schema-driven object-construction
engine.  Class declarations (annotations plus optional defaults or
yamlfield descriptors) are registered by the yamlcls decorator (function
wrap); construction runs _init over one input mapping, resolving each
value against the declared type via resolve_type and the ordered RESOLVERS
list.  Python values coming from a parsed YAML document are modelled by
the inductive Value; Python type annotations by Ann; Python dictionaries
by insertion-ordered association lists with overwrite-on-existing-key
assignment (dinsert).  Recursion through nested class construction is
bounded by an explicit fuel parameter (Python bounds it by the
interpreter stack); every theorem quantifies over or instantiates the
fuel, and running out of fuel is a distinguished error that never occurs
at adequate fuel.
-/

namespace Yamlcls

/-- The four primitive kinds: str, int, float, bool (PRIMITIVES). -/
inductive PKind where
  | pInt
  | pFloat
  | pStr
  | pBool
deriving DecidableEq, Repr

/--
A Python type annotation as accepted by the engine.  rawList and rawDict
stand for the unparameterized container shapes (the builtins list and
dict as well as the bare typing.List and typing.Dict, both of which
registration rejects); listOf and dictOf are the parameterized
typing.List and typing.Dict shapes; cls is a reference (by index into an
environment of registered schemas) to a class used as a nested-schema
annotation; anyT is typing.Any.
-/
inductive Ann where
  | prim (k : PKind)
  | anyT
  | rawList
  | rawDict
  | listOf (t : Ann)
  | dictOf (k v : Ann)
  | cls (idx : Nat)
deriving DecidableEq, Repr

/--
An untyped runtime value of the shapes the engine handles: the scalars a
YAML parser produces, None, lists, dicts (insertion-ordered key-value
lists; real Python dicts have pairwise distinct keys), and constructed
class instances (class name plus attribute list, as set by setattr).
Float payloads are modelled as rationals: no claim depends on float
arithmetic, floats are only carried around and compared.
-/
inductive Value where
  | vnone
  | vbool (b : Bool)
  | vint (n : Int)
  | vfloat (q : Rat)
  | vstr (s : String)
  | vlist (xs : List Value)
  | vdict (entries : List (Value × Value))
  | vinst (cname : String) (fields : List (String × Value))

/-- A member default: either a literal value or a zero-argument factory
function (inspect.isfunction distinguishes the two in the source). -/
inductive Default where
  | lit (v : Value)
  | factory (f : Unit → Value)

/-- The declaration attached to one annotated class member: no default
(bare annotation), a plain default value, or a yamlfield descriptor
carrying optional alias, default and options.  A yamlfield whose default
is None still classifies the member as required, mirroring
default.default is None in the source. -/
inductive FieldDecl where
  | noDefault
  | plainDefault (d : Default)
  | yfield (aliasName : Option String) (dflt : Option Default) (options : Option (List Value))

/-- Errors: each constructor mirrors one raise site of the source
(exception class or distinct generic-Exception message). -/
inductive Err where
  | wrongType (key : String) (value : Value) (target : Ann)
  | unknownArgument (key : Value) (value : Value)
  | missingRequiredArgument (key : String) (parent : String)
  | unsupportedType (value : Value)
  | valueNotAnOption (value : Value) (options : List Value)
  | untypedContainer (name : String)
  | invalidMapKey (name : String)
  | unsupportedAnnotation (name : String)
  | invalidDefaultType (name : String)
  | dictKeyNotPrimitive (name : String) (key : Value)
  | progError (key : String)
  | initSourceConflict (cls : String)
  | initSourceNotDict (cls : String)
  | pyCrash (msg : String)
  | fuelExhausted

/-- The tables wrap builds for one registered class: required and
optional members, the alias table (yaml-name to class-name) and the
options table, plus the per-class configuration flags. -/
structure Schema where
  name : String
  required : List (String × Ann)
  optional : List (String × Ann × Default)
  aliasTab : List (String × String)
  options : List (String × List Value)
  ignoreMissing : Bool
  ignoreUnknown : Bool

/-- A class declaration handed to the yamlcls decorator: ordered
annotated members with their declarations, plus the decorator flags. -/
structure ClsDecl where
  name : String
  fields : List (String × Ann × FieldDecl)
  ignoreMissing : Bool
  ignoreUnknown : Bool

/-- Python dict assignment d[k] = v: overwrite in place when the key is
present (keeping its position), append otherwise. -/
def dinsert {α β : Type} [DecidableEq α] (k : α) (v : β) : List (α × β) → List (α × β)
  | [] => [(k, v)]
  | (k2, v2) :: rest => if k = k2 then (k, v) :: rest else (k2, v2) :: dinsert k v rest

/-- Python dict lookup d[k] / membership k in d. -/
def dlookup {α β : Type} [DecidableEq α] (k : α) : List (α × β) → Option β
  | [] => none
  | (k2, v2) :: rest => if k = k2 then some v2 else dlookup k rest

/-- Python isinstance(value, k) for a primitive target class k.  bool is
a subclass of int in Python, so a boolean value satisfies
isinstance(value, int). -/
def isinstancePrim : Value → PKind → Bool
  | .vint _, .pInt => true
  | .vbool _, .pInt => true
  | .vfloat _, .pFloat => true
  | .vstr _, .pStr => true
  | .vbool _, .pBool => true
  | _, _ => false

/-- Python isinstance(k, ALLOWED_DICT_KEY_TYPES) with
ALLOWED_DICT_KEY_TYPES = (str, int, float); booleans pass because bool
is a subclass of int. -/
def isAllowedDictKey : Value → Bool
  | .vstr _ => true
  | .vint _ => true
  | .vfloat _ => true
  | .vbool _ => true
  | _ => false

/-- Python isinstance(v, (str, int, float, list, dict)) used by _init to
reject unsupported raw input values; booleans pass (bool is a subclass
of int), None and instances do not. -/
def isSupportedInputValue : Value → Bool
  | .vstr _ => true
  | .vint _ => true
  | .vfloat _ => true
  | .vbool _ => true
  | .vlist _ => true
  | .vdict _ => true
  | _ => false

/-- The is_responsible predicate of ClassResolver:
not isinstance(target, PRIMITIVES) and type(target) == type.  The
annotation forms that are plain Python class objects are the primitive
classes, the builtins list and dict, and user classes; parameterized
generics and typing.Any are not. -/
def isClassTarget : Ann → Bool
  | .prim _ => true
  | .rawList => true
  | .rawDict => true
  | .cls _ => true
  | _ => false

/-- Python isinstance(default, VAR_DEFAULT_TYPES) with
VAR_DEFAULT_TYPES = (str, int, float, bool, Callable, NoneType): a
factory is Callable, a literal must be a scalar or None. -/
def defaultTypeAllowed : Default → Bool
  | .factory _ => true
  | .lit .vnone => true
  | .lit (.vbool _) => true
  | .lit (.vint _) => true
  | .lit (.vfloat _) => true
  | .lit (.vstr _) => true
  | .lit _ => false

/-- Python value is None. -/
def Value.isNone : Value → Bool
  | .vnone => true
  | _ => false

/-- Python str(k) for the values that can reach it (dict keys that
passed isAllowedDictKey); the rendering of other shapes is a stand-in,
it only feeds error-message labels. -/
def pyStr : Value → String
  | .vstr s => s
  | .vint n => toString n
  | .vfloat q => toString q
  | .vbool b => cond b "True" "False"
  | .vnone => "None"
  | .vlist _ => "list"
  | .vdict _ => "dict"
  | .vinst c _ => c

/-- The numeric interpretation Python uses for cross-type equality of
bool, int and float (True == 1, 1 == 1.0). -/
def numVal : Value → Option Rat
  | .vbool b => some (cond b 1 0)
  | .vint n => some (n : Rat)
  | .vfloat q => some q
  | _ => none

mutual

/-- Python == on the modelled values: numeric tower equality across
bool, int and float; structural equality for strings, None, lists and
dicts (dict equality is order-insensitive); class instances compare by
identity in Python (no generated eq), which never holds across the
distinct objects compared here. -/
def pyEq : Value → Value → Bool
  | .vnone, .vnone => true
  | .vstr a, .vstr b => a = b
  | .vlist xs, .vlist ys => pyEqList xs ys
  | .vdict xs, .vdict ys => xs.length = ys.length && pyDictSub xs ys
  | a, b =>
    match numVal a, numVal b with
    | some p, some q => p = q
    | _, _ => false
termination_by a b => sizeOf a + sizeOf b

def pyEqList : List Value → List Value → Bool
  | [], [] => true
  | x :: xs, y :: ys => pyEq x y && pyEqList xs ys
  | _, _ => false
termination_by xs ys => sizeOf xs + sizeOf ys

def pyDictSub : List (Value × Value) → List (Value × Value) → Bool
  | [], _ => true
  | (k, v) :: rest, ys => pyDictGetEq ys k v && pyDictSub rest ys
termination_by xs ys => sizeOf xs + sizeOf ys

def pyDictGetEq : List (Value × Value) → Value → Value → Bool
  | [], _, _ => false
  | (k2, v2) :: rest, k, v => if pyEq k k2 then pyEq v v2 else pyDictGetEq rest k v
termination_by ys k v => sizeOf ys + sizeOf k + sizeOf v

end

/-- Lookup of an input key in the alias table (k not in alias / alias[k]
in the source).  The alias table is keyed by strings, so only a string
input key can match; on success both the external yaml name and the
translated internal name are returned. -/
def aliasLookup (key : Value) (al : List (String × String)) : Option (String × String) :=
  match key with
  | .vstr s => (dlookup s al).map (fun t => (s, t))
  | _ => none

/-- Python ** argument unpacking requires every key of the mapping to be
a string. -/
def allKeysStrings : List (Value × Value) → Bool
  | [] => true
  | (k, _) :: rest => (match k with | .vstr _ => true | _ => false) && allKeysStrings rest

/-- The required-fields postcondition loop of _init: the first required
member whose seen flag is still false raises MissingRequiredArgument
unless ignore_missing is set. -/
def checkRequired (cname : String) (ignoreMissing : Bool) : List (String × Bool) → Except Err Unit
  | [] => .ok ()
  | (k, isset) :: rest =>
    if !isset && !ignoreMissing then .error (.missingRequiredArgument k cname)
    else checkRequired cname ignoreMissing rest

/-- The source determination step of _init: a translated name is looked
up in the required seen-set, then the optional seen-set; a name in
neither raises the defensive Programming error.  Returns the declared
type and the updated seen-sets.  The KeyError fallbacks cannot fire
because the seen-sets are keyed exactly by the schema tables.  The
source sets the seen flag before the later per-entry checks; computing
the updated seen-sets here and threading them only into the success
continuation is equivalent, because any later failure aborts the whole
construction call and discards the local seen-sets. -/
def classifySource (sch : Schema) (k : String) (rset oset : List (String × Bool)) : Except Err (Ann × List (String × Bool) × List (String × Bool)) :=
  if rset.any (fun p => p.1 = k) then
    match dlookup k sch.required with
    | some ty => .ok (ty, dinsert k true rset, oset)
    | none => .error (.pyCrash "KeyError in required")
  else if oset.any (fun p => p.1 = k) then
    match dlookup k sch.optional with
    | some p => .ok (p.1, rset, dinsert k true oset)
    | none => .error (.pyCrash "KeyError in optional")
  else .error (.progError k)

/-- The allow-list check of _init: when the member declares options, the
raw input value must be a member of the list under Python equality. -/
def checkOptions (sch : Schema) (k : String) (v : Value) : Except Err Unit :=
  match dlookup k sch.options with
  | some opts =>
    if !(opts.any (fun o => pyEq v o)) then .error (.valueNotAnOption v opts) else .ok ()
  | none => .ok ()

/-- ListResolver.resolve after the list isinstance check, parametrized
by the resolver used for the elements (resolve_type at the enclosing
dispatch layer): each element is resolved against the element
annotation, first failure wins, and a fresh list of the resolved
elements is produced. -/
def resolve_list_with (r : Value → Except Err Value) : List Value → Except Err (List Value)
  | [] => .ok []
  | x :: rest =>
    match r x with
    | .error e => .error e
    | .ok rx =>
      match resolve_list_with r rest with
      | .error e => .error e
      | .ok rs => .ok (rx :: rs)

/-- DictResolver.resolve after the dict isinstance check, parametrized
by the recursive resolver: every key must satisfy the allowed-key
isinstance test, is then resolved against the key annotation for
validation only (the result is dropped), the value is resolved against
the value annotation, and the result entry keeps the original key;
entries keep the iteration order of the source mapping (real Python
dicts have pairwise distinct keys, so the dict assignment
result[k] = v appends in order). -/
def resolve_dict_entries_with (r : String → Value → Ann → Except Err Value) (name : String) (ka va : Ann) : List (Value × Value) → Except Err (List (Value × Value))
  | [] => .ok []
  | (k, v) :: rest =>
    if !isAllowedDictKey k then .error (.dictKeyNotPrimitive name k)
    else
      match r (pyStr k) k ka with
      | .error e => .error e
      | .ok _ =>
        match r name v va with
        | .error e => .error e
        | .ok rv =>
          match resolve_dict_entries_with r name ka va rest with
          | .error e => .error e
          | .ok rs => .ok ((k, rv) :: rs)

/-- The per-entry loop of _init, parametrized by the recursive
resolver: translate the external key through the alias table (unknown
keys raise UnknownArgument unless ignore_unknown), mark the member
seen, reject raw values of unsupported native kind, enforce the
allow-list, resolve the value against the declared type and store it
under the internal name. -/
def init_loop_with (r : String → Value → Ann → Except Err Value) (sch : Schema) : List (Value × Value) → List (String × Bool) → List (String × Bool) → List (String × Value) → Except Err (List (String × Bool) × List (String × Bool) × List (String × Value))
  | [], rset, oset, inst => .ok (rset, oset, inst)
  | (key, v) :: rest, rset, oset, inst =>
    match aliasLookup key sch.aliasTab with
    | none =>
      if !sch.ignoreUnknown then .error (.unknownArgument key v)
      else init_loop_with r sch rest rset oset inst
    | some (yamlname, k) =>
      match classifySource sch k rset oset with
      | .error e => .error e
      | .ok (ty, rset2, oset2) =>
        if !isSupportedInputValue v then .error (.unsupportedType v)
        else
          match checkOptions sch k v with
          | .error e => .error e
          | .ok _ =>
            match r yamlname v ty with
            | .error e => .error e
            | .ok rv => init_loop_with r sch rest rset2 oset2 (dinsert k rv inst)

/-- The defaults loop of _init, parametrized by the recursive resolver:
every optional member still unseen gets its default; a factory default
is invoked now, its produced value is validated against the declared
type, and the produced value itself is stored; a literal default is
stored directly without re-validation. -/
def fill_defaults_with (r : String → Value → Ann → Except Err Value) (sch : Schema) : List (String × Bool) → List (String × Value) → Except Err (List (String × Value))
  | [], inst => .ok inst
  | (k, isset) :: rest, inst =>
    if isset then fill_defaults_with r sch rest inst
    else
      match dlookup k sch.optional with
      | none => .error (.pyCrash "KeyError in optional defaults")
      | some (ty, d) =>
        match d with
        | .factory f =>
          match r ("Default of " ++ k) (f ()) ty with
          | .error e => .error e
          | .ok _ => fill_defaults_with r sch rest (dinsert k (f ()) inst)
        | .lit v => fill_defaults_with r sch rest (dinsert k v inst)

/-- The body of the generated _init after the init source has been
chosen, parametrized by the recursive resolver: consume the input
mapping, enforce the required-field postcondition, then fill defaults
for unseen optional members. -/
def init_body_with (r : String → Value → Ann → Except Err Value) (sch : Schema) (initDict : List (Value × Value)) : Except Err (List (String × Value)) :=
  match init_loop_with r sch initDict (sch.required.map (fun p => (p.1, false))) (sch.optional.map (fun p => (p.1, false))) [] with
  | .error e => .error e
  | .ok (_rset, oset, inst) =>
    match checkRequired sch.name sch.ignoreMissing _rset with
    | .error e => .error e
    | .ok _ => fill_defaults_with r sch oset inst

/-- resolve_type: scans the RESOLVERS list in order (NoneResolver,
AnyResolver, the four PrimitiveResolvers for int, float, str, bool,
ClassResolver, ListResolver, DictResolver) and lets the first
responsible resolver act; no resolver responsible raises WrongType.
The source recursion through nested values and nested class
construction is bounded here by the fuel parameter, decremented once
per dispatch layer; the loops over list elements, dict entries and
class members run at the decremented fuel through the parametrized
helpers above. -/
def resolve_type (env : List Schema) : Nat → String → Value → Ann → Except Err Value
  | 0, _, _, _ => .error .fuelExhausted
  | fuel + 1, name, value, target =>
    if value.isNone then .ok value
    else if target = .anyT then .ok value
    else if target = .prim .pInt then
      (if isinstancePrim value .pInt then .ok value else .error (.wrongType name value target))
    else if target = .prim .pFloat then
      (if isinstancePrim value .pFloat then .ok value else .error (.wrongType name value target))
    else if target = .prim .pStr then
      (if isinstancePrim value .pStr then .ok value else .error (.wrongType name value target))
    else if target = .prim .pBool then
      (if isinstancePrim value .pBool then .ok value else .error (.wrongType name value target))
    else if isClassTarget target then
      -- ClassResolver.resolve: a non-dict value raises WrongType, then
      -- target(**value) constructs the nested instance.  For the class
      -- object targets that are not registered classes (the builtins
      -- list and dict, rejected at registration) the Python call would
      -- crash with a TypeError, modelled as pyCrash.
      match value with
      | .vdict es =>
        match target with
        | .cls i =>
          match env.get? i with
          | some sch =>
            if allKeysStrings es then
              match init_body_with (resolve_type env fuel) sch es with
              | .error e => .error e
              | .ok fields => .ok (.vinst sch.name fields)
            else .error (.pyCrash "keywords must be strings")
          | none => .error (.pyCrash "unresolved class reference")
        | _ => .error (.pyCrash "TypeError: unexpected keyword arguments")
      | _ => .error (.wrongType name value target)
    else
      match target with
      | .listOf t =>
        match value with
        | .vlist xs =>
          match resolve_list_with (fun x => resolve_type env fuel name x t) xs with
          | .error e => .error e
          | .ok rs => .ok (.vlist rs)
        | _ => .error (.wrongType name value target)
      | .dictOf ka va =>
        match value with
        | .vdict es =>
          match resolve_dict_entries_with (resolve_type env fuel) name ka va es with
          | .error e => .error e
          | .ok rs => .ok (.vdict rs)
        | _ => .error (.wrongType name value target)
      | _ => .error (.wrongType name value target)

/-- DictResolver.resolve at a given fuel level. -/
def resolve_dict_entries (env : List Schema) (fuel : Nat) (name : String) (ka va : Ann) (es : List (Value × Value)) : Except Err (List (Value × Value)) :=
  resolve_dict_entries_with (resolve_type env fuel) name ka va es

/-- The body of the generated _init at a given fuel level. -/
def init_body (env : List Schema) (fuel : Nat) (sch : Schema) (initDict : List (Value × Value)) : Except Err (List (String × Value)) :=
  init_body_with (resolve_type env fuel) sch initDict

/-- The defaults loop of _init at a given fuel level. -/
def fill_defaults (env : List Schema) (fuel : Nat) (sch : Schema) (pending : List (String × Bool)) (inst : List (String × Value)) : Except Err (List (String × Value)) :=
  fill_defaults_with (resolve_type env fuel) sch pending inst

/-- _chose_init_source: a construction call receives either one
positional mapping or discrete keyword arguments, never both; the
keyword arguments (whose keys Python forces to be strings) become the
init mapping when no positional argument is given. -/
def chose_init_source (cname : String) (args : List Value) (kwargs : List (String × Value)) : Except Err (List (Value × Value)) :=
  if min 1 args.length + min 1 kwargs.length > 1 then .error (.initSourceConflict cname)
  else
    match args with
    | a :: _ =>
      match a with
      | .vdict d => .ok d
      | _ => .error (.initSourceNotDict cname)
    | [] => .ok (kwargs.map (fun p => (Value.vstr p.1, p.2)))

/-- The generated __init__ of a registered class: choose the init
source, then run the construction body.  The result is the attribute
list of the constructed instance. -/
def init (env : List Schema) (fuel : Nat) (sch : Schema) (args : List Value) (kwargs : List (String × Value)) : Except Err (List (String × Value)) :=
  match chose_init_source sch.name args kwargs with
  | .error e => .error e
  | .ok d => init_body env fuel sch d

/-- assert_type_annotation_allowed: registration-time validation of one
member annotation.  Primitives and Any pass; unparameterized list and
dict shapes are rejected; a parameterized list recurses into its element
annotation; a parameterized dict checks that the key annotation is one
of the allowed key classes (str, int, float; the tuple membership test
on type objects does not admit bool) or Any, then recurses into the
value annotation; a class annotation passes. -/
def assert_type_annotation_allowed (name : String) : Ann → Except Err Unit
  | .prim _ => .ok ()
  | .anyT => .ok ()
  | .rawList => .error (.untypedContainer name)
  | .rawDict => .error (.untypedContainer name)
  | .listOf t => assert_type_annotation_allowed name t
  | .dictOf ka va =>
    if !(ka = .prim .pStr || ka = .prim .pInt || ka = .prim .pFloat || ka = .anyT) then
      .error (.invalidMapKey name)
    else assert_type_annotation_allowed name va
  | .cls _ => .ok ()

/-- check_default: the default must be of an allowed native kind
(scalar, None or callable); a non-factory default is validated against
the declared type now, at registration; a factory is deliberately not
invoked during class definition. -/
def check_default (env : List Schema) (fuel : Nat) (vname : String) (vtype : Ann) (d : Default) : Except Err (Ann × Default) :=
  if !defaultTypeAllowed d then .error (.invalidDefaultType vname)
  else
    match d with
    | .factory _ => .ok (vtype, d)
    | .lit v =>
      match resolve_type env fuel ("Default of " ++ vname) v vtype with
      | .error e => .error e
      | .ok _ => .ok (vtype, d)

/-- One iteration of the registration loop in wrap: validate the
annotation, classify the member as required or optional from its
declaration, register options after resolving them against a list of
the declared type, and fill the alias table.  A member with a yamlfield
declaring both a default and an alias is entered into the alias table
under its own name by the default-handling step and under the alias by
the alias-handling step. -/
def wrap_field (env : List Schema) (fuel : Nat) (cname : String) (sch : Schema) : String × Ann × FieldDecl → Except Err Schema
  | (vname, vtype, decl) =>
    match assert_type_annotation_allowed vname vtype with
    | .error e => .error e
    | .ok _ =>
      match decl with
      | .noDefault =>
        .ok { sch with required := dinsert vname vtype sch.required,
                       aliasTab := dinsert vname vname sch.aliasTab }
      | .plainDefault d =>
        match check_default env fuel vname vtype d with
        | .error e => .error e
        | .ok od =>
          .ok { sch with optional := dinsert vname od sch.optional,
                         aliasTab := dinsert vname vname sch.aliasTab }
      | .yfield al dopt opts =>
        let step1 : Except Err Schema :=
          match dopt with
          | none => .ok { sch with required := dinsert vname vtype sch.required }
          | some d =>
            match check_default env fuel vname vtype d with
            | .error e => .error e
            | .ok od =>
              .ok { sch with optional := dinsert vname od sch.optional,
                             aliasTab := dinsert vname vname sch.aliasTab }
        match step1 with
        | .error e => .error e
        | .ok sch1 =>
          let step2 : Except Err Schema :=
            match opts with
            | none => .ok sch1
            | some os =>
              match resolve_type env fuel ("Options of " ++ cname ++ "." ++ vname) (.vlist os) (.listOf vtype) with
              | .error e => .error e
              | .ok _ => .ok { sch1 with options := dinsert vname os sch1.options }
          match step2 with
          | .error e => .error e
          | .ok sch2 =>
            match al with
            | some a => .ok { sch2 with aliasTab := dinsert a vname sch2.aliasTab }
            | none => .ok { sch2 with aliasTab := dinsert vname vname sch2.aliasTab }

/-- The registration loop of wrap over the annotated members, in
declaration order. -/
def wrap_fields (env : List Schema) (fuel : Nat) (cname : String) : Schema → List (String × Ann × FieldDecl) → Except Err Schema
  | sch, [] => .ok sch
  | sch, f :: rest =>
    match wrap_field env fuel cname sch f with
    | .error e => .error e
    | .ok sch2 => wrap_fields env fuel cname sch2 rest

/-- The wrap function of the yamlcls decorator: build the required,
optional, alias and options tables of a class declaration. -/
def wrap (env : List Schema) (fuel : Nat) (c : ClsDecl) : Except Err Schema :=
  wrap_fields env fuel c.name
    { name := c.name, required := [], optional := [], aliasTab := [], options := [],
      ignoreMissing := c.ignoreMissing, ignoreUnknown := c.ignoreUnknown }
    c.fields

/-
Spec-side definitions: these follow the wording of the specification and
are compared against the behavior of the embedded source functions.
-/

/-- The native scalar kind of a value, in the sense of the specification:
an integer value has kind int, a float value kind float, a string value
kind str, a boolean value kind bool; container values, None and
instances have no native scalar kind. -/
def nativeKind : Value → Option PKind
  | .vint _ => some .pInt
  | .vfloat _ => some .pFloat
  | .vstr _ => some .pStr
  | .vbool _ => some .pBool
  | _ => none

/-- The map-key annotations the specification allows: integer, float,
string, or Any. -/
def allowedKeySpec (ka : Ann) : Prop :=
  ka = .prim .pStr ∨ ka = .prim .pInt ∨ ka = .prim .pFloat ∨ ka = .anyT

instance (ka : Ann) : Decidable (allowedKeySpec ka) := by
  unfold allowedKeySpec; infer_instance

/-- Every alias-table entry translates to an internal name that is a
required or optional member of the schema. -/
def aliasInv (sch : Schema) : Prop :=
  ∀ p ∈ sch.aliasTab, p.2 ∈ sch.required.map Prod.fst ∨ p.2 ∈ sch.optional.map Prod.fst

/--
Claim C3: for every descriptor (primitive, Any, list, map or
nested-class) and every field name, resolve_type applied to the absent
marker None returns None unchanged and raises no error, regardless of
the descriptor; the None rule is dispatched before every other resolver
rule, so it wins even for primitive and container descriptors.
-/
theorem c3_none_passthrough (env : List Schema) (fuel : Nat) (name : String) (ann : Ann) :
    resolve_type env (fuel + 1) name Value.vnone ann = .ok Value.vnone := by
  simp [resolve_type, Value.isNone]

/--
Claim C9: for every schema and every string-keyed input mapping,
construction through the single-mapping entry point and construction
through the discrete keyword-arguments entry point produce identical
results: both succeed with the same attribute list or both fail with
the same error.
-/
theorem c9_entry_points_agree (env : List Schema) (fuel : Nat) (sch : Schema) (kw : List (String × Value)) :
    init env fuel sch [Value.vdict (kw.map (fun p => (Value.vstr p.1, p.2)))] [] =
      init env fuel sch [] kw := by
  cases kw with
  | nil => rfl
  | cons p rest => simp [init, chose_init_source, Nat.min_def]

/--
Claim C1 (amended): for every non-None value, resolving against a
primitive descriptor returns the value unchanged exactly when the value
has the matching native scalar kind, or when the target is int and the
value is a boolean (Python bool is a subclass of int, so the isinstance
check of the int resolver accepts it); every other combination raises
WrongType.  In particular an integer is never accepted where a float is
expected.
-/
theorem c1_primitive_resolution (env : List Schema) (fuel : Nat) (name : String) (v : Value) (k : PKind)
    (hv : v.isNone = false) :
    (resolve_type env (fuel + 1) name v (.prim k) = .ok v ↔
      (nativeKind v = some k ∨ (k = .pInt ∧ ∃ b, v = .vbool b)))
    ∧ (resolve_type env (fuel + 1) name v (.prim k) = .ok v ∨
       resolve_type env (fuel + 1) name v (.prim k) = .error (.wrongType name v (.prim k))) := by
  cases v <;> cases k <;>
    simp_all [resolve_type, Value.isNone, isinstancePrim, isClassTarget, nativeKind]

/-- Concrete instantiation of the C1 theorem: an integer value is
accepted unchanged by the int resolver. -/
theorem c1_witness :
    resolve_type [] 1 "f" (Value.vint 3) (Ann.prim PKind.pInt) = .ok (Value.vint 3) :=
  ((c1_primitive_resolution [] 0 "f" (Value.vint 3) PKind.pInt rfl).1).2 (Or.inl rfl)

/-- Counterexample to claim C1 as stated: a boolean input is accepted
unchanged where an integer is expected, instead of raising WrongType. -/
theorem c1_bool_accepted_as_int :
    resolve_type [] 1 "f" (Value.vbool true) (Ann.prim PKind.pInt) = .ok (Value.vbool true)
    ∧ resolve_type [] 1 "f" (Value.vbool true) (Ann.prim PKind.pInt) ≠
        .error (.wrongType "f" (Value.vbool true) (Ann.prim PKind.pInt)) :=
  ⟨rfl, fun h => Except.noConfusion h⟩

/--
Claim C8: registration-time validation of a member annotation rejects
every unparameterized list or map shape, rejects every parameterized map
whose key annotation is not integer, float or string and not Any,
recurses into list element annotations and map value annotations so the
same rules apply at every nesting depth, and always passes primitives,
Any and nested-class references.
-/
theorem c8_registration_rules (name : String) :
    (∀ k, assert_type_annotation_allowed name (.prim k) = .ok ())
    ∧ assert_type_annotation_allowed name .anyT = .ok ()
    ∧ (∀ i, assert_type_annotation_allowed name (.cls i) = .ok ())
    ∧ assert_type_annotation_allowed name .rawList = .error (.untypedContainer name)
    ∧ assert_type_annotation_allowed name .rawDict = .error (.untypedContainer name)
    ∧ (∀ t, assert_type_annotation_allowed name (.listOf t) = assert_type_annotation_allowed name t)
    ∧ (∀ ka va, ¬allowedKeySpec ka →
        assert_type_annotation_allowed name (.dictOf ka va) = .error (.invalidMapKey name))
    ∧ (∀ ka va, allowedKeySpec ka →
        assert_type_annotation_allowed name (.dictOf ka va) = assert_type_annotation_allowed name va) := by
  refine ⟨fun k => rfl, rfl, fun i => rfl, rfl, rfl, fun t => rfl, ?_, ?_⟩
  · intro ka va h
    simp only [allowedKeySpec, not_or] at h
    obtain ⟨h1, h2, h3, h4⟩ := h
    simp [assert_type_annotation_allowed, h1, h2, h3, h4]
  · intro ka va h
    rcases h with h | h | h | h <;> subst h <;> rfl

/-- Concrete instantiation of the C8 theorem: a map keyed by bool is
rejected (bool is not an allowed key annotation), and a map keyed by
str with a rejected value annotation is rejected through the recursion. -/
theorem c8_witness :
    assert_type_annotation_allowed "x" (.dictOf (.prim .pBool) (.prim .pStr)) = .error (.invalidMapKey "x")
    ∧ assert_type_annotation_allowed "x" (.dictOf (.prim .pStr) .rawList) = .error (.untypedContainer "x") :=
  ⟨(c8_registration_rules "x").2.2.2.2.2.2.1 (.prim .pBool) (.prim .pStr) (by decide),
   by rw [(c8_registration_rules "x").2.2.2.2.2.2.2 (.prim .pStr) .rawList (Or.inl rfl)]
      exact (c8_registration_rules "x").2.2.2.1⟩

/-- A value has a native scalar kind exactly when it passes the
allowed-dict-key isinstance test of the source. -/
theorem nativeKind_isSome_iff (v : Value) :
    (nativeKind v).isSome = true ↔ isAllowedDictKey v = true := by
  cases v <;> simp [nativeKind, isAllowedDictKey]

/-- Successful dict-entry resolution keeps the original keys in order,
admits only keys passing the allowed-key test, resolves each key for
validation only and resolves each value positionally. -/
theorem resolve_dict_entries_with_ok (r : String → Value → Ann → Except Err Value) (name : String) (ka va : Ann) :
    ∀ es es2, resolve_dict_entries_with r name ka va es = .ok es2 →
      es2.map Prod.fst = es.map Prod.fst
      ∧ (∀ p ∈ es, isAllowedDictKey p.1 = true)
      ∧ (∀ p ∈ es, ∃ rk, r (pyStr p.1) p.1 ka = .ok rk)
      ∧ (∀ q ∈ es.zip es2, r name q.1.2 va = .ok q.2.2) := by
  intro es
  induction es with
  | nil =>
    intro es2 h
    simp only [resolve_dict_entries_with, Except.ok.injEq] at h
    subst h
    simp
  | cons p rest ih =>
    intro es2 h
    obtain ⟨k, v⟩ := p
    simp only [resolve_dict_entries_with] at h
    cases hk : isAllowedDictKey k with
    | false => rw [hk] at h; simp at h
    | true =>
      rw [hk] at h
      simp only [Bool.not_true, Bool.false_eq_true, if_false] at h
      cases hr1 : r (pyStr k) k ka with
      | error e => rw [hr1] at h; simp at h
      | ok rk =>
        rw [hr1] at h
        cases hr2 : r name v va with
        | error e => rw [hr2] at h; simp at h
        | ok rv =>
          rw [hr2] at h
          cases hr3 : resolve_dict_entries_with r name ka va rest with
          | error e => rw [hr3] at h; simp at h
          | ok rs =>
            rw [hr3] at h
            simp only [Except.ok.injEq] at h
            subst h
            obtain ⟨ih1, ih2, ih3, ih4⟩ := ih rs hr3
            refine ⟨by simp [ih1], ?_, ?_, ?_⟩
            · intro q hq
              rcases List.mem_cons.mp hq with hq | hq
              · subst hq; exact hk
              · exact ih2 q hq
            · intro q hq
              rcases List.mem_cons.mp hq with hq | hq
              · subst hq; exact ⟨rk, hr1⟩
              · exact ih3 q hq
            · intro q hq
              rcases List.mem_cons.mp hq with hq | hq
              · subst hq; exact hr2
              · exact ih4 q hq

/--
Claim C4 (amended): for every MapOf(k, v) descriptor, a non-None
non-mapping input raises WrongType; for a mapping input that resolves
successfully, every entry key passed the native key-kind test (integer,
float, string, or boolean, the latter because Python bool is a subclass
of int), every key was resolved against k for validation only while the
original key representation is retained as the result key, every value
was resolved against v positionally, and the result mapping keeps the
iteration order of the source mapping.
-/
theorem c4_map_resolution (env : List Schema) (fuel : Nat) (name : String) (ka va : Ann) :
    (∀ v, v.isNone = false → (∀ es, v ≠ .vdict es) →
      resolve_type env (fuel + 1) name v (.dictOf ka va) = .error (.wrongType name v (.dictOf ka va)))
    ∧ (∀ es r, resolve_type env (fuel + 1) name (.vdict es) (.dictOf ka va) = .ok r →
      ∃ es2, r = .vdict es2
        ∧ es2.map Prod.fst = es.map Prod.fst
        ∧ (∀ p ∈ es, (nativeKind p.1).isSome = true)
        ∧ (∀ p ∈ es, ∃ rk, resolve_type env fuel (pyStr p.1) p.1 ka = .ok rk)
        ∧ (∀ q ∈ es.zip es2, resolve_type env fuel name q.1.2 va = .ok q.2.2)) := by
  constructor
  · intro v hv hnd
    cases v with
    | vnone => simp [Value.isNone] at hv
    | vdict es0 => exact absurd rfl (hnd es0)
    | vbool b => rfl
    | vint n => rfl
    | vfloat q => rfl
    | vstr s => rfl
    | vlist xs => rfl
    | vinst c fs => rfl
  · intro es r h
    have h2 : (match resolve_dict_entries_with (resolve_type env fuel) name ka va es with
        | .error e => Except.error e
        | .ok rs => Except.ok (Value.vdict rs)) = Except.ok r := h
    cases hre : resolve_dict_entries_with (resolve_type env fuel) name ka va es with
    | error e => rw [hre] at h2; simp at h2
    | ok rs =>
      rw [hre] at h2
      simp only [Except.ok.injEq] at h2
      obtain ⟨e1, e2, e3, e4⟩ := resolve_dict_entries_with_ok (resolve_type env fuel) name ka va es rs hre
      exact ⟨rs, h2.symm, e1, fun p hp => (nativeKind_isSome_iff p.1).mpr (e2 p hp), e3, e4⟩

/-- Concrete instantiation of the C4 theorem: a non-mapping input to a
map descriptor raises WrongType. -/
theorem c4_witness :
    resolve_type [] 1 "f" (Value.vint 0) (Ann.dictOf Ann.anyT Ann.anyT)
      = .error (.wrongType "f" (Value.vint 0) (Ann.dictOf Ann.anyT Ann.anyT)) :=
  (c4_map_resolution [] 0 "f" Ann.anyT Ann.anyT).1 (Value.vint 0) rfl (fun es h => Value.noConfusion h)

/-- Counterexample to claim C4 as stated: a boolean dict key, whose
native kind is bool and therefore outside the claimed restricted key
kinds integer, float and string, is accepted by the map resolver
instead of being rejected. -/
theorem c4_bool_key_accepted :
    resolve_type [] 2 "f" (.vdict [(.vbool true, .vint 1)]) (.dictOf (.prim .pInt) (.prim .pInt))
      = .ok (.vdict [(.vbool true, .vint 1)])
    ∧ nativeKind (Value.vbool true) ≠ some PKind.pInt
    ∧ nativeKind (Value.vbool true) ≠ some PKind.pFloat
    ∧ nativeKind (Value.vbool true) ≠ some PKind.pStr := by
  refine ⟨rfl, ?_, ?_, ?_⟩ <;> simp [nativeKind]

/--
Claim C2 (amended): a field declared with an explicit alias and no
default is populated when the input mapping contains the alias key, and
its own internal name is not an accepted input key (it is treated as
unknown) unless the internal name equals the alias; a field declared
with an explicit alias and a default is additionally entered into the
alias table under its own internal name by the default-handling branch
of wrap, so the input may use either the alias or the internal name.
-/
theorem c2_alias_population (env : List Schema) (fuel : Nat) (vname a : String) (ty : Ann) (d : Default)
    (hassert : assert_type_annotation_allowed vname ty = .ok ())
    (hd : check_default env fuel vname ty d = .ok (ty, d)) :
    (wrap env fuel ⟨"A", [(vname, ty, .yfield (some a) (some d) none)], false, false⟩
       = .ok ⟨"A", [], [(vname, (ty, d))], dinsert a vname [(vname, vname)], [], false, false⟩)
    ∧ dlookup vname (dinsert a vname [(vname, vname)]) = some vname
    ∧ dlookup a (dinsert a vname [(vname, vname)]) = some vname
    ∧ (wrap env fuel ⟨"A", [(vname, ty, .yfield (some a) none none)], false, false⟩
       = .ok ⟨"A", [(vname, ty)], [], [(a, vname)], [], false, false⟩)
    ∧ (vname ≠ a → dlookup vname [(a, vname)] = none)
    ∧ (∀ v rv, isSupportedInputValue v = true →
        resolve_type env fuel a v ty = .ok rv →
        init env fuel ⟨"A", [(vname, ty)], [], [(a, vname)], [], false, false⟩
          [Value.vdict [(.vstr a, v)]] [] = .ok [(vname, rv)])
    ∧ (∀ v, vname ≠ a →
        init env fuel ⟨"A", [(vname, ty)], [], [(a, vname)], [], false, false⟩
          [Value.vdict [(.vstr vname, v)]] [] = .error (.unknownArgument (.vstr vname) v))
    ∧ (∀ v rv, isSupportedInputValue v = true →
        resolve_type env fuel vname v ty = .ok rv →
        init env fuel ⟨"A", [], [(vname, (ty, d))], dinsert a vname [(vname, vname)], [], false, false⟩
          [Value.vdict [(.vstr vname, v)]] [] = .ok [(vname, rv)]) := by
  refine ⟨?_, ?_, ?_, ?_, ?_, ?_, ?_, ?_⟩
  · simp [wrap, wrap_fields, wrap_field, hassert, hd, dinsert]
  · rcases eq_or_ne a vname with h | h <;> simp [dinsert, dlookup, h]
  · rcases eq_or_ne a vname with h | h <;> simp [dinsert, dlookup, h]
  · simp [wrap, wrap_fields, wrap_field, hassert, dinsert]
  · intro h
    simp [dlookup, h]
  · intro v rv hsup hres
    simp [init, chose_init_source, init_body, init_body_with, init_loop_with, aliasLookup,
      dlookup, classifySource, checkOptions, checkRequired, fill_defaults_with, dinsert,
      hsup, hres]
  · intro v hne
    simp [init, chose_init_source, init_body, init_body_with, init_loop_with, aliasLookup,
      dlookup, hne]
  · intro v rv hsup hres
    rcases eq_or_ne a vname with h | h <;>
      simp [init, chose_init_source, init_body, init_body_with, init_loop_with, aliasLookup,
        dlookup, classifySource, checkOptions, checkRequired, fill_defaults_with, dinsert,
        h, hsup, hres]

/-- Concrete instantiation of the C2 theorem: the aliased member with a
default is populated through its internal name. -/
theorem c2_witness :
    init [] 1 ⟨"A", [], [("a", (Ann.prim PKind.pInt, Default.lit (Value.vint 222)))],
        dinsert "BB" "a" [("a", "a")], [], false, false⟩
      [Value.vdict [(.vstr "a", Value.vint 5)]] [] = .ok [("a", Value.vint 5)] :=
  (c2_alias_population [] 1 "a" "BB" (Ann.prim PKind.pInt) (Default.lit (Value.vint 222))
      rfl rfl).2.2.2.2.2.2.2 (Value.vint 5) (Value.vint 5) rfl rfl

/-- Counterexample to claim C2 as stated: for a field declared with
alias BB and default 222, registration enters both the internal name
and the alias into the alias table, and construction from an input
keyed by the internal name succeeds and populates the field, instead of
treating the internal name as unknown. -/
theorem c2_internal_name_matches :
    wrap [] 1 ⟨"A", [("a", .prim .pInt, .yfield (some "BB") (some (.lit (.vint 222))) none)], false, false⟩
      = .ok ⟨"A", [], [("a", (.prim .pInt, .lit (.vint 222)))], [("a", "a"), ("BB", "a")], [], false, false⟩
    ∧ init [] 1 ⟨"A", [], [("a", (.prim .pInt, .lit (.vint 222)))], [("a", "a"), ("BB", "a")], [], false, false⟩
        [Value.vdict [(.vstr "a", Value.vint 5)]] [] = .ok [("a", Value.vint 5)] :=
  ⟨rfl, rfl⟩

/--
Claim C5 (amended): for every field that declares an allow-list and
every construction call supplying a raw input value of a supported
native kind for that field, membership of the raw value in the
allow-list (under Python equality, tested on the raw value before type
resolution) is enforced: a non-member fails with ValueNotAnOption
independently of whether the value would pass the type check, and a
member proceeds to type resolution.  A raw value of unsupported native
kind (None) fails earlier with UnsupportedType, before the allow-list
is consulted.
-/
theorem c5_options_enforcement (env : List Schema) (fuel : Nat) (vname : String) (ty : Ann) (opts : List Value)
    (hassert : assert_type_annotation_allowed vname ty = .ok ())
    (hopts : ∃ rs, resolve_type env fuel ("Options of A." ++ vname) (.vlist opts) (.listOf ty) = .ok rs) :
    (wrap env fuel ⟨"A", [(vname, ty, .yfield none none (some opts))], false, false⟩
       = .ok ⟨"A", [(vname, ty)], [], [(vname, vname)], [(vname, opts)], false, false⟩)
    ∧ (∀ v, isSupportedInputValue v = true → opts.any (fun o => pyEq v o) = false →
        init env fuel ⟨"A", [(vname, ty)], [], [(vname, vname)], [(vname, opts)], false, false⟩
          [Value.vdict [(.vstr vname, v)]] [] = .error (.valueNotAnOption v opts))
    ∧ (∀ v rv, isSupportedInputValue v = true → opts.any (fun o => pyEq v o) = true →
        resolve_type env fuel vname v ty = .ok rv →
        init env fuel ⟨"A", [(vname, ty)], [], [(vname, vname)], [(vname, opts)], false, false⟩
          [Value.vdict [(.vstr vname, v)]] [] = .ok [(vname, rv)])
    ∧ (∀ v e, isSupportedInputValue v = true → opts.any (fun o => pyEq v o) = true →
        resolve_type env fuel vname v ty = .error e →
        init env fuel ⟨"A", [(vname, ty)], [], [(vname, vname)], [(vname, opts)], false, false⟩
          [Value.vdict [(.vstr vname, v)]] [] = .error e) := by
  obtain ⟨rs, hrs⟩ := hopts
  refine ⟨?_, ?_, ?_, ?_⟩
  · simp [wrap, wrap_fields, wrap_field, hassert, hrs, dinsert]
  · intro v hsup hmem
    simp [init, chose_init_source, init_body, init_body_with, init_loop_with, aliasLookup,
      dlookup, classifySource, checkOptions, hsup, hmem]
  · intro v rv hsup hmem hres
    simp [init, chose_init_source, init_body, init_body_with, init_loop_with, aliasLookup,
      dlookup, classifySource, checkOptions, checkRequired, fill_defaults_with, dinsert,
      hsup, hmem, hres]
  · intro v e hsup hmem hres
    simp [init, chose_init_source, init_body, init_body_with, init_loop_with, aliasLookup,
      dlookup, classifySource, checkOptions, hsup, hmem, hres]

/-- Concrete instantiation of the C5 theorem: a string input outside
the allow-list of an int field fails with ValueNotAnOption (before the
type check would reject it). -/
theorem c5_witness :
    init [] 2 ⟨"A", [("a", Ann.prim PKind.pInt)], [], [("a", "a")], [("a", [Value.vint 1, Value.vint 2])], false, false⟩
      [Value.vdict [(.vstr "a", Value.vstr "x")]] []
      = .error (.valueNotAnOption (Value.vstr "x") [Value.vint 1, Value.vint 2]) :=
  (c5_options_enforcement [] 2 "a" (Ann.prim PKind.pInt) [Value.vint 1, Value.vint 2]
      rfl ⟨_, rfl⟩).2.1 (Value.vstr "x") rfl (by simp [pyEq, numVal])

/-- Counterexample to claim C5 as stated: a null raw value for a field
with an allow-list fails with UnsupportedType, not ValueNotAnOption,
because the native-kind check of _init runs before the allow-list
membership test. -/
theorem c5_none_gets_unsupported :
    wrap [] 2 ⟨"A", [("a", .prim .pInt, .yfield none none (some [.vint 1, .vint 2]))], false, false⟩
      = .ok ⟨"A", [("a", .prim .pInt)], [], [("a", "a")], [("a", [.vint 1, .vint 2])], false, false⟩
    ∧ init [] 2 ⟨"A", [("a", .prim .pInt)], [], [("a", "a")], [("a", [.vint 1, .vint 2])], false, false⟩
        [Value.vdict [(.vstr "a", Value.vnone)]] [] = .error (.unsupportedType Value.vnone)
    ∧ Err.unsupportedType Value.vnone ≠ Err.valueNotAnOption Value.vnone [.vint 1, .vint 2]
    ∧ ([Value.vint 1, Value.vint 2].any (fun o => pyEq Value.vnone o) = false) := by
  refine ⟨rfl, rfl, fun h => Err.noConfusion h, by simp [pyEq, numVal]⟩

/--
Claim C6: a factory default is never invoked at schema registration
(registration succeeds for every factory, whatever value it would
produce); at a construction call in which the field is not supplied,
the factory is invoked and its produced value is resolved against the
declared type, a failure surfacing at construction time; a literal
default is type-checked at registration (a mismatching literal fails
wrap with the resolution error) and is stored directly at construction
without re-validation (whatever literal the schema carries is stored).
-/
theorem c6_default_factories (env : List Schema) (fuel : Nat) (vname : String) (ty : Ann) (f : Unit → Value)
    (hassert : assert_type_annotation_allowed vname ty = .ok ()) :
    (check_default env fuel vname ty (.factory f) = .ok (ty, .factory f))
    ∧ (wrap env fuel ⟨"A", [(vname, ty, .plainDefault (.factory f))], false, false⟩
        = .ok ⟨"A", [], [(vname, (ty, .factory f))], [(vname, vname)], [], false, false⟩)
    ∧ (∀ e, resolve_type env fuel ("Default of " ++ vname) (f ()) ty = .error e →
        init env fuel ⟨"A", [], [(vname, (ty, .factory f))], [(vname, vname)], [], false, false⟩
          [Value.vdict []] [] = .error e)
    ∧ (∀ rv, resolve_type env fuel ("Default of " ++ vname) (f ()) ty = .ok rv →
        init env fuel ⟨"A", [], [(vname, (ty, .factory f))], [(vname, vname)], [], false, false⟩
          [Value.vdict []] [] = .ok [(vname, f ())])
    ∧ (∀ v e, defaultTypeAllowed (.lit v) = true →
        resolve_type env fuel ("Default of " ++ vname) v ty = .error e →
        wrap env fuel ⟨"A", [(vname, ty, .plainDefault (.lit v))], false, false⟩ = .error e)
    ∧ (∀ v : Value,
        init env fuel ⟨"A", [], [(vname, (ty, .lit v))], [(vname, vname)], [], false, false⟩
          [Value.vdict []] [] = .ok [(vname, v)]) := by
  refine ⟨?_, ?_, ?_, ?_, ?_, ?_⟩
  · simp [check_default, defaultTypeAllowed]
  · simp [wrap, wrap_fields, wrap_field, hassert, check_default, defaultTypeAllowed, dinsert]
  · intro e he
    simp [init, chose_init_source, init_body, init_body_with, init_loop_with, checkRequired,
      fill_defaults_with, dlookup, dinsert, he]
  · intro rv hrv
    simp [init, chose_init_source, init_body, init_body_with, init_loop_with, checkRequired,
      fill_defaults_with, dlookup, dinsert, hrv]
  · intro v e hlit he
    simp [wrap, wrap_fields, wrap_field, hassert, check_default, hlit, he]
  · intro v
    simp [init, chose_init_source, init_body, init_body_with, init_loop_with, checkRequired,
      fill_defaults_with, dlookup, dinsert]

/-- Concrete instantiation of the C6 theorem: a factory producing a
string for an int field passes registration but fails construction
with WrongType, at the moment the default is needed. -/
theorem c6_witness :
    init [] 1 ⟨"A", [], [("a", (Ann.prim PKind.pInt, Default.factory (fun _ => Value.vstr "x")))], [("a", "a")], [], false, false⟩
      [Value.vdict []] []
      = .error (.wrongType ("Default of " ++ "a") (Value.vstr "x") (Ann.prim PKind.pInt)) :=
  (c6_default_factories [] 1 "a" (Ann.prim PKind.pInt) (fun _ => Value.vstr "x") rfl).2.2.1
    (.wrongType ("Default of " ++ "a") (Value.vstr "x") (Ann.prim PKind.pInt)) rfl

/-- checkRequired never fails when ignore_missing is enabled. -/
theorem checkRequired_ignore (cname : String) : ∀ l, checkRequired cname true l = .ok () := by
  intro l
  induction l with
  | nil => rfl
  | cons p rest ih => simp [checkRequired, ih]

/-- The keys of a dict after assignment are the assigned key or keys
already present. -/
theorem mem_keys_dinsert {α β : Type} [DecidableEq α] (k : α) (v : β) :
    ∀ (l : List (α × β)) (s : α), s ∈ (dinsert k v l).map Prod.fst → s = k ∨ s ∈ l.map Prod.fst := by
  intro l
  induction l with
  | nil => intro s hs; simpa [dinsert] using hs
  | cons p rest ih =>
    intro s hs
    by_cases hk : k = p.1
    · subst hk
      simp [dinsert] at hs
      rcases hs with hs | hs
      · exact Or.inl hs
      · exact Or.inr (by simp [hs])
    · obtain ⟨p1, p2⟩ := p
      simp only [dinsert, if_neg hk, List.map_cons, List.mem_cons] at hs
      rcases hs with hs | hs
      · exact Or.inr (by simp [hs])
      · rcases ih s hs with hs2 | hs2
        · exact Or.inl hs2
        · exact Or.inr (by simp [hs2])

/-- The defaults loop only ever stores keys it was given: every key of
the produced instance was already an attribute or is one of the pending
optional member names. -/
theorem fill_defaults_with_keys (r : String → Value → Ann → Except Err Value) (sch : Schema) :
    ∀ (pending : List (String × Bool)) (inst out : List (String × Value)),
      fill_defaults_with r sch pending inst = .ok out →
      ∀ s, s ∈ out.map Prod.fst → s ∈ inst.map Prod.fst ∨ s ∈ pending.map Prod.fst := by
  intro pending
  induction pending with
  | nil =>
    intro inst out h s hs
    simp only [fill_defaults_with, Except.ok.injEq] at h
    subst h
    exact Or.inl hs
  | cons p rest ih =>
    intro inst out h s hs
    obtain ⟨k, isset⟩ := p
    simp only [fill_defaults_with] at h
    cases isset with
    | true =>
      simp only [if_true] at h
      rcases ih inst out h s hs with h2 | h2
      · exact Or.inl h2
      · exact Or.inr (by simp [h2])
    | false =>
      simp only [Bool.false_eq_true, if_false] at h
      cases hl : dlookup k sch.optional with
      | none => rw [hl] at h; simp at h
      | some td =>
        rw [hl] at h
        obtain ⟨ty, d⟩ := td
        cases d with
        | factory f =>
          cases hr : r ("Default of " ++ k) (f ()) ty with
          | error e => simp only [hr] at h; simp at h
          | ok rv =>
            simp only [hr] at h
            rcases ih _ out h s hs with h2 | h2
            · rcases mem_keys_dinsert k (f ()) inst s h2 with h3 | h3
              · exact Or.inr (by simp [h3])
              · exact Or.inl h3
            · exact Or.inr (by simp [h2])
        | lit v =>
          rcases ih _ out h s hs with h2 | h2
          · rcases mem_keys_dinsert k v inst s h2 with h3 | h3
            · exact Or.inr (by simp [h3])
            · exact Or.inl h3
          · exact Or.inr (by simp [h2])

/-- The seen-set membership test of _init in terms of keys. -/
theorem any_fst_eq_iff {β : Type} (l : List (String × β)) (k : String) :
    (l.any (fun p => p.1 = k)) = true ↔ k ∈ l.map Prod.fst := by
  induction l with
  | nil => simp
  | cons q rest ih =>
    simp only [List.any_cons, List.map_cons, List.mem_cons, Bool.or_eq_true, ih,
      decide_eq_true_eq]
    constructor
    · rintro (h | h)
      · exact Or.inl h.symm
      · exact Or.inr h
    · rintro (h | h)
      · exact Or.inl h.symm
      · exact Or.inr h

/-- When no pending input entry translates to a key of the required
seen-set, the per-entry loop of _init leaves the required seen-set
untouched: a seen flag only changes when an entry names that member. -/
theorem init_loop_with_rset_const (r : String → Value → Ann → Except Err Value) (sch : Schema) :
    ∀ (pending : List (Value × Value)) (rset oset : List (String × Bool))
      (inst : List (String × Value)) (rset2 oset2 : List (String × Bool)) (inst2 : List (String × Value)),
      init_loop_with r sch pending rset oset inst = .ok (rset2, oset2, inst2) →
      (∀ p ∈ pending, ∀ y k2, aliasLookup p.1 sch.aliasTab = some (y, k2) →
        k2 ∉ rset.map Prod.fst) →
      rset2 = rset := by
  intro pending
  induction pending with
  | nil =>
    intro rset oset inst rset2 oset2 inst2 h habs
    simp only [init_loop_with, Except.ok.injEq, Prod.mk.injEq] at h
    exact h.1.symm
  | cons p rest ih =>
    intro rset oset inst rset2 oset2 inst2 h habs
    obtain ⟨key, v⟩ := p
    simp only [init_loop_with] at h
    split at h
    · split at h
      · exact absurd h (by simp)
      · exact ih rset oset inst rset2 oset2 inst2 h
          (fun q hq y k2 hal => habs q (List.mem_cons_of_mem _ hq) y k2 hal)
    · next yamlname k hal =>
      have hnotin : k ∉ rset.map Prod.fst :=
        habs (key, v) (List.mem_cons_self _ _) yamlname k hal
      have hany : rset.any (fun q => q.1 = k) = false := by
        cases hval : rset.any (fun q => q.1 = k) with
        | false => rfl
        | true => exact absurd ((any_fst_eq_iff rset k).mp hval) hnotin
      split at h
      · exact absurd h (by simp)
      · next ty rset3 oset3 hcs =>
        simp only [classifySource, hany, Bool.false_eq_true, if_false] at hcs
        split at hcs
        · split at hcs
          · simp only [Except.ok.injEq, Prod.mk.injEq] at hcs
            obtain ⟨-, hr3, ho3⟩ := hcs
            subst hr3
            subst ho3
            split at h
            · exact absurd h (by simp)
            · split at h
              · exact absurd h (by simp)
              · split at h
                · exact absurd h (by simp)
                · exact ih _ _ _ _ _ _ h
                    (fun q hq y k2 hal2 => habs q (List.mem_cons_of_mem _ hq) y k2 hal2)
          · exact absurd hcs (by simp)
        · exact absurd hcs (by simp)

/--
Claim C7: a required field absent from the input mapping is enforced:
for every schema, construction from the empty mapping (every field
absent) with ignore_missing_fields disabled fails with
MissingRequiredArgument naming the first required field, and for a
schema with a single required field, construction from any input
mapping none of whose keys translates to that field fails with
MissingRequiredArgument naming it whenever the per-entry loop itself
raises no earlier error; with ignore_missing_fields enabled the empty
mapping constructs successfully and the instance has no attribute for
any required-only field.
-/
theorem c7_missing_required (env : List Schema) (fuel : Nat) (sch : Schema) :
    (sch.ignoreMissing = false → ∀ r ty rest2, sch.required = (r, ty) :: rest2 →
      init env fuel sch [Value.vdict []] [] = .error (.missingRequiredArgument r sch.name))
    ∧ (sch.ignoreMissing = false → ∀ r ty d rset2 oset2 inst2,
      sch.required = [(r, ty)] →
      (∀ p ∈ d, ∀ y k2, aliasLookup p.1 sch.aliasTab = some (y, k2) → k2 ≠ r) →
      init_loop_with (resolve_type env fuel) sch d [(r, false)]
        (sch.optional.map (fun p => (p.1, false))) [] = .ok (rset2, oset2, inst2) →
      init env fuel sch [Value.vdict d] [] = .error (.missingRequiredArgument r sch.name))
    ∧ (sch.ignoreMissing = true → ∀ inst, init env fuel sch [Value.vdict []] [] = .ok inst →
      ∀ s ∈ sch.required.map Prod.fst, s ∉ sch.optional.map Prod.fst → s ∉ inst.map Prod.fst) := by
  refine ⟨?_, ?_, ?_⟩
  · intro him r ty rest2 hreq
    simp [init, chose_init_source, init_body, init_body_with, init_loop_with, hreq, him,
      checkRequired]
  · intro him r ty d rset2 oset2 inst2 hreq habs hloop
    have hconst : rset2 = [(r, false)] :=
      init_loop_with_rset_const (resolve_type env fuel) sch d [(r, false)]
        (sch.optional.map (fun p => (p.1, false))) [] rset2 oset2 inst2 hloop
        (fun p hp y k2 hal => by
          simp only [List.map_cons, List.map_nil, List.mem_cons, List.not_mem_nil]
          intro hk
          rcases hk with hk | hk
          · exact habs p hp y k2 hal hk
          · exact hk)
    subst hconst
    have hd : chose_init_source sch.name [Value.vdict d] [] = .ok d := by
      simp [chose_init_source]
    simp only [init, hd, init_body, init_body_with, hreq, List.map_cons, List.map_nil]
    rw [hloop]
    simp [checkRequired, him]
  · intro him inst h s _hs hsopt hsinst
    simp only [init, chose_init_source, init_body, init_body_with, init_loop_with,
      List.length_nil, List.length_cons, him, checkRequired_ignore] at h
    have hkeys := fill_defaults_with_keys (resolve_type env fuel) sch
      (sch.optional.map (fun p => (p.1, false))) [] inst (by exact h) s hsinst
    rcases hkeys with h2 | h2
    · simp at h2
    · exact hsopt (by simpa using h2)

/-- Concrete instantiation of the C7 theorem: omitting the single
required field fails with MissingRequiredArgument naming it. -/
theorem c7_witness :
    init [] 1 ⟨"A", [("a", Ann.prim PKind.pInt)], [], [("a", "a")], [], false, false⟩
      [Value.vdict []] [] = .error (.missingRequiredArgument "a" "A") :=
  (c7_missing_required [] 1 ⟨"A", [("a", Ann.prim PKind.pInt)], [], [("a", "a")], [], false, false⟩).1
    rfl "a" (Ann.prim PKind.pInt) [] rfl

/-- A result is free of the defensive Programming error. -/
def progFree {α : Type} (res : Except Err α) : Prop :=
  ∀ s, res ≠ Except.error (Err.progError s)

/-- A successful result is progError-free. -/
theorem progFree_ok {α : Type} (x : α) : progFree (Except.ok x) :=
  fun _ h => Except.noConfusion h

/-- An error result is progError-free exactly when its error is not the
Programming error. -/
theorem progFree_error_iff {α : Type} (e : Err) :
    progFree (Except.error (α := α) e) ↔ ∀ s, e ≠ Err.progError s := by
  constructor
  · intro h s hs
    exact h s (by rw [hs])
  · intro h s hs
    injection hs with hs2
    exact h s hs2

/-- An error that is not the Programming error gives a progError-free
result. -/
theorem progFree_not_prog {α : Type} {e : Err} (h : ∀ s, e ≠ Err.progError s) :
    progFree (Except.error (α := α) e) :=
  (progFree_error_iff e).mpr h

/-- progError-freedom of an error result does not depend on the value
type of the computation. -/
theorem progFree_transport {α β : Type} (e : Err)
    (h : progFree (Except.error (α := α) e)) : progFree (Except.error (α := β) e) :=
  (progFree_error_iff e).mpr ((progFree_error_iff e).mp h)

/-- Every element of a dict after assignment is the assigned pair or an
element already present. -/
theorem mem_dinsert {α β : Type} [DecidableEq α] (k : α) (v : β) :
    ∀ (l : List (α × β)) (p : α × β), p ∈ dinsert k v l → p = (k, v) ∨ p ∈ l := by
  intro l
  induction l with
  | nil => intro p hp; simpa [dinsert] using hp
  | cons q rest ih =>
    intro p hp
    obtain ⟨q1, q2⟩ := q
    by_cases hk : k = q1
    · simp only [dinsert, if_pos hk, List.mem_cons] at hp
      rcases hp with hp | hp
      · exact Or.inl hp
      · exact Or.inr (List.mem_cons_of_mem _ hp)
    · simp only [dinsert, if_neg hk, List.mem_cons] at hp
      rcases hp with hp | hp
      · exact Or.inr (by simp [hp])
      · rcases ih p hp with hp2 | hp2
        · exact Or.inl hp2
        · exact Or.inr (List.mem_cons_of_mem _ hp2)

/-- Dict assignment never removes a key. -/
theorem keys_dinsert_mono {α β : Type} [DecidableEq α] (k : α) (v : β) :
    ∀ (l : List (α × β)) (s : α), s ∈ l.map Prod.fst → s ∈ (dinsert k v l).map Prod.fst := by
  intro l
  induction l with
  | nil => intro s hs; simp at hs
  | cons q rest ih =>
    intro s hs
    obtain ⟨q1, q2⟩ := q
    by_cases hk : k = q1
    · subst hk
      simp only [dinsert, if_pos rfl]
      simpa using hs
    · simp only [dinsert, if_neg hk, List.map_cons, List.mem_cons]
      simp only [List.map_cons, List.mem_cons] at hs
      rcases hs with hs | hs
      · exact Or.inl hs
      · exact Or.inr (ih s hs)

/-- The assigned key is a key of the result. -/
theorem self_mem_keys_dinsert {α β : Type} [DecidableEq α] (k : α) (v : β) :
    ∀ l : List (α × β), k ∈ (dinsert k v l).map Prod.fst := by
  intro l
  induction l with
  | nil => simp [dinsert]
  | cons q rest ih =>
    obtain ⟨q1, q2⟩ := q
    by_cases hk : k = q1
    · simp [dinsert, if_pos hk]
    · simp only [dinsert, if_neg hk, List.map_cons, List.mem_cons]
      exact Or.inr ih

/-- A successful dict lookup returns a pair of the dict. -/
theorem dlookup_mem {α β : Type} [DecidableEq α] (k : α) :
    ∀ (l : List (α × β)) (v : β), dlookup k l = some v → (k, v) ∈ l := by
  intro l
  induction l with
  | nil => intro v h; simp [dlookup] at h
  | cons q rest ih =>
    intro v h
    obtain ⟨q1, q2⟩ := q
    by_cases hk : k = q1
    · subst hk
      simp only [dlookup, if_true, eq_self_iff_true, Option.some.injEq] at h
      subst h
      exact List.mem_cons_self _ _
    · simp only [dlookup, if_neg hk] at h
      exact List.mem_cons_of_mem _ (ih v h)

/-- Schema extension step for the alias invariant: growing the member
tables and adding alias entries that target registered members keeps
the invariant. -/
theorem aliasInv_extend (sch : Schema) (req2 : List (String × Ann)) (opt2 : List (String × Ann × Default))
    (al2 : List (String × String)) (opts2 : List (String × List Value)) (nm : String) (im iu : Bool)
    (hinv : aliasInv sch)
    (hreq : ∀ s, s ∈ sch.required.map Prod.fst → s ∈ req2.map Prod.fst)
    (hopt : ∀ s, s ∈ sch.optional.map Prod.fst → s ∈ opt2.map Prod.fst)
    (halias : ∀ p ∈ al2, p.2 ∈ req2.map Prod.fst ∨ p.2 ∈ opt2.map Prod.fst ∨ p ∈ sch.aliasTab) :
    aliasInv ⟨nm, req2, opt2, al2, opts2, im, iu⟩ := by
  intro p hp
  rcases halias p hp with h | h | h
  · exact Or.inl h
  · exact Or.inr h
  · rcases hinv p h with h2 | h2
    · exact Or.inl (hreq _ h2)
    · exact Or.inr (hopt _ h2)

/-- Each registration step of wrap preserves the alias invariant: the
alias entries it adds always target the member being registered, which
it enters into the required or optional table in the same step. -/
theorem wrap_field_aliasInv (env : List Schema) (fuel : Nat) (cname : String) (sch : Schema)
    (vname : String) (vtype : Ann) (decl : FieldDecl) (sch2 : Schema)
    (hinv : aliasInv sch)
    (h : wrap_field env fuel cname sch (vname, vtype, decl) = .ok sch2) : aliasInv sch2 := by
  cases ha : assert_type_annotation_allowed vname vtype with
  | error e => simp [wrap_field, ha] at h
  | ok u =>
    cases decl with
    | noDefault =>
      simp only [wrap_field, ha, Except.ok.injEq] at h
      subst h
      refine aliasInv_extend sch _ _ _ _ _ _ _ hinv
        (fun s hs => keys_dinsert_mono vname vtype sch.required s hs) (fun s hs => hs) ?_
      intro p hp
      rcases mem_dinsert vname vname sch.aliasTab p hp with hp2 | hp2
      · subst hp2
        exact Or.inl (self_mem_keys_dinsert vname vtype sch.required)
      · exact Or.inr (Or.inr hp2)
    | plainDefault d =>
      cases hc : check_default env fuel vname vtype d with
      | error e => simp [wrap_field, ha, hc] at h
      | ok od =>
        simp only [wrap_field, ha, hc, Except.ok.injEq] at h
        subst h
        refine aliasInv_extend sch _ _ _ _ _ _ _ hinv
          (fun s hs => hs) (fun s hs => keys_dinsert_mono vname od sch.optional s hs) ?_
        intro p hp
        rcases mem_dinsert vname vname sch.aliasTab p hp with hp2 | hp2
        · subst hp2
          exact Or.inr (Or.inl (self_mem_keys_dinsert vname od sch.optional))
        · exact Or.inr (Or.inr hp2)
    | yfield al dopt opts =>
      cases dopt with
      | none =>
        cases opts with
        | none =>
          cases al with
          | some a =>
            simp only [wrap_field, ha, Except.ok.injEq] at h
            subst h
            refine aliasInv_extend sch _ _ _ _ _ _ _ hinv
              (fun s hs => keys_dinsert_mono vname vtype sch.required s hs) (fun s hs => hs) ?_
            intro p hp
            rcases mem_dinsert a vname sch.aliasTab p hp with hp2 | hp2
            · subst hp2
              exact Or.inl (self_mem_keys_dinsert vname vtype sch.required)
            · exact Or.inr (Or.inr hp2)
          | none =>
            simp only [wrap_field, ha, Except.ok.injEq] at h
            subst h
            refine aliasInv_extend sch _ _ _ _ _ _ _ hinv
              (fun s hs => keys_dinsert_mono vname vtype sch.required s hs) (fun s hs => hs) ?_
            intro p hp
            rcases mem_dinsert vname vname sch.aliasTab p hp with hp2 | hp2
            · subst hp2
              exact Or.inl (self_mem_keys_dinsert vname vtype sch.required)
            · exact Or.inr (Or.inr hp2)
        | some os =>
          cases hro : resolve_type env fuel ("Options of " ++ cname ++ "." ++ vname) (.vlist os) (.listOf vtype) with
          | error e => simp [wrap_field, ha, hro] at h
          | ok rs =>
            cases al with
            | some a =>
              simp only [wrap_field, ha, hro, Except.ok.injEq] at h
              subst h
              refine aliasInv_extend sch _ _ _ _ _ _ _ hinv
                (fun s hs => keys_dinsert_mono vname vtype sch.required s hs) (fun s hs => hs) ?_
              intro p hp
              rcases mem_dinsert a vname sch.aliasTab p hp with hp2 | hp2
              · subst hp2
                exact Or.inl (self_mem_keys_dinsert vname vtype sch.required)
              · exact Or.inr (Or.inr hp2)
            | none =>
              simp only [wrap_field, ha, hro, Except.ok.injEq] at h
              subst h
              refine aliasInv_extend sch _ _ _ _ _ _ _ hinv
                (fun s hs => keys_dinsert_mono vname vtype sch.required s hs) (fun s hs => hs) ?_
              intro p hp
              rcases mem_dinsert vname vname sch.aliasTab p hp with hp2 | hp2
              · subst hp2
                exact Or.inl (self_mem_keys_dinsert vname vtype sch.required)
              · exact Or.inr (Or.inr hp2)
      | some d =>
        cases hc : check_default env fuel vname vtype d with
        | error e => simp [wrap_field, ha, hc] at h
        | ok od =>
          cases opts with
          | none =>
            cases al with
            | some a =>
              simp only [wrap_field, ha, hc, Except.ok.injEq] at h
              subst h
              refine aliasInv_extend sch _ _ _ _ _ _ _ hinv
                (fun s hs => hs) (fun s hs => keys_dinsert_mono vname od sch.optional s hs) ?_
              intro p hp
              rcases mem_dinsert a vname (dinsert vname vname sch.aliasTab) p hp with hp2 | hp2
              · subst hp2
                exact Or.inr (Or.inl (self_mem_keys_dinsert vname od sch.optional))
              · rcases mem_dinsert vname vname sch.aliasTab p hp2 with hp3 | hp3
                · subst hp3
                  exact Or.inr (Or.inl (self_mem_keys_dinsert vname od sch.optional))
                · exact Or.inr (Or.inr hp3)
            | none =>
              simp only [wrap_field, ha, hc, Except.ok.injEq] at h
              subst h
              refine aliasInv_extend sch _ _ _ _ _ _ _ hinv
                (fun s hs => hs) (fun s hs => keys_dinsert_mono vname od sch.optional s hs) ?_
              intro p hp
              rcases mem_dinsert vname vname (dinsert vname vname sch.aliasTab) p hp with hp2 | hp2
              · subst hp2
                exact Or.inr (Or.inl (self_mem_keys_dinsert vname od sch.optional))
              · rcases mem_dinsert vname vname sch.aliasTab p hp2 with hp3 | hp3
                · subst hp3
                  exact Or.inr (Or.inl (self_mem_keys_dinsert vname od sch.optional))
                · exact Or.inr (Or.inr hp3)
          | some os =>
            cases hro : resolve_type env fuel ("Options of " ++ cname ++ "." ++ vname) (.vlist os) (.listOf vtype) with
            | error e => simp [wrap_field, ha, hc, hro] at h
            | ok rs =>
              cases al with
              | some a =>
                simp only [wrap_field, ha, hc, hro, Except.ok.injEq] at h
                subst h
                refine aliasInv_extend sch _ _ _ _ _ _ _ hinv
                  (fun s hs => hs) (fun s hs => keys_dinsert_mono vname od sch.optional s hs) ?_
                intro p hp
                rcases mem_dinsert a vname (dinsert vname vname sch.aliasTab) p hp with hp2 | hp2
                · subst hp2
                  exact Or.inr (Or.inl (self_mem_keys_dinsert vname od sch.optional))
                · rcases mem_dinsert vname vname sch.aliasTab p hp2 with hp3 | hp3
                  · subst hp3
                    exact Or.inr (Or.inl (self_mem_keys_dinsert vname od sch.optional))
                  · exact Or.inr (Or.inr hp3)
              | none =>
                simp only [wrap_field, ha, hc, hro, Except.ok.injEq] at h
                subst h
                refine aliasInv_extend sch _ _ _ _ _ _ _ hinv
                  (fun s hs => hs) (fun s hs => keys_dinsert_mono vname od sch.optional s hs) ?_
                intro p hp
                rcases mem_dinsert vname vname (dinsert vname vname sch.aliasTab) p hp with hp2 | hp2
                · subst hp2
                  exact Or.inr (Or.inl (self_mem_keys_dinsert vname od sch.optional))
                · rcases mem_dinsert vname vname sch.aliasTab p hp2 with hp3 | hp3
                  · subst hp3
                    exact Or.inr (Or.inl (self_mem_keys_dinsert vname od sch.optional))
                  · exact Or.inr (Or.inr hp3)

/-- The registration loop preserves the alias invariant. -/
theorem wrap_fields_aliasInv (env : List Schema) (fuel : Nat) (cname : String) :
    ∀ (fs : List (String × Ann × FieldDecl)) (sch sch2 : Schema),
      aliasInv sch → wrap_fields env fuel cname sch fs = .ok sch2 → aliasInv sch2 := by
  intro fs
  induction fs with
  | nil =>
    intro sch sch2 hinv h
    simp only [wrap_fields, Except.ok.injEq] at h
    subst h
    exact hinv
  | cons f rest ih =>
    intro sch sch2 hinv h
    simp only [wrap_fields] at h
    cases hf : wrap_field env fuel cname sch f with
    | error e => rw [hf] at h; simp at h
    | ok sch1 =>
      rw [hf] at h
      obtain ⟨v1, v2, v3⟩ := f
      exact ih sch1 sch2 (wrap_field_aliasInv env fuel cname sch v1 v2 v3 sch1 hinv hf) h

/-- Every schema produced by registration satisfies the alias
invariant: each alias entry targets a required or optional member. -/
theorem wrap_aliasInv (env : List Schema) (fuel : Nat) (c : ClsDecl) (sch : Schema)
    (h : wrap env fuel c = .ok sch) : aliasInv sch :=
  wrap_fields_aliasInv env fuel c.name c.fields _ sch (fun p hp => absurd hp (List.not_mem_nil p)) h

theorem progFree_checkRequired (c : String) (im : Bool) : ∀ l, progFree (checkRequired c im l) := by
  intro l
  induction l with
  | nil => exact progFree_ok ()
  | cons p rest ih =>
    obtain ⟨k, isset⟩ := p
    simp only [checkRequired]
    split
    · exact progFree_not_prog (fun s hs => Err.noConfusion hs)
    · exact ih

theorem progFree_checkOptions (sch : Schema) (k : String) (v : Value) : progFree (checkOptions sch k v) := by
  simp only [checkOptions]
  split
  · split
    · exact progFree_not_prog (fun s hs => Err.noConfusion hs)
    · exact progFree_ok ()
  · exact progFree_ok ()

theorem progFree_classifySource (sch : Schema) (k : String) (rset oset : List (String × Bool))
    (h : k ∈ rset.map Prod.fst ∨ k ∈ oset.map Prod.fst) :
    progFree (classifySource sch k rset oset) := by
  simp only [classifySource]
  cases h1 : rset.any (fun p => p.1 = k) with
  | true =>
    simp only [if_true]
    split
    · exact progFree_ok _
    · exact progFree_not_prog (fun s hs => Err.noConfusion hs)
  | false =>
    simp only [Bool.false_eq_true, if_false]
    cases h2 : oset.any (fun p => p.1 = k) with
    | true =>
      simp only [if_true]
      split
      · exact progFree_ok _
      · exact progFree_not_prog (fun s hs => Err.noConfusion hs)
    | false =>
      exfalso
      rcases h with h | h
      · rw [← any_fst_eq_iff rset k] at h
        rw [h1] at h
        exact Bool.noConfusion h
      · rw [← any_fst_eq_iff oset k] at h
        rw [h2] at h
        exact Bool.noConfusion h

theorem classifySource_keys (sch : Schema) (k : String) (rset oset : List (String × Bool))
    (ty : Ann) (rset2 oset2 : List (String × Bool))
    (h : classifySource sch k rset oset = .ok (ty, rset2, oset2)) :
    (∀ s, s ∈ rset.map Prod.fst → s ∈ rset2.map Prod.fst)
    ∧ (∀ s, s ∈ oset.map Prod.fst → s ∈ oset2.map Prod.fst) := by
  simp only [classifySource] at h
  cases h1 : rset.any (fun p => p.1 = k) with
  | true =>
    rw [h1] at h
    simp only [if_true] at h
    cases h2 : dlookup k sch.required with
    | none => rw [h2] at h; simp at h
    | some ty2 =>
      rw [h2] at h
      simp only [Except.ok.injEq, Prod.mk.injEq] at h
      obtain ⟨-, hr, ho⟩ := h
      subst hr
      subst ho
      exact ⟨fun s hs => keys_dinsert_mono k true rset s hs, fun s hs => hs⟩
  | false =>
    rw [h1] at h
    simp only [Bool.false_eq_true, if_false] at h
    cases h2 : oset.any (fun p => p.1 = k) with
    | true =>
      rw [h2] at h
      simp only [if_true] at h
      cases h3 : dlookup k sch.optional with
      | none => rw [h3] at h; simp at h
      | some td =>
        rw [h3] at h
        simp only [Except.ok.injEq, Prod.mk.injEq] at h
        obtain ⟨-, hr, ho⟩ := h
        subst hr
        subst ho
        exact ⟨fun s hs => hs, fun s hs => keys_dinsert_mono k true oset s hs⟩
    | false => rw [h2] at h; simp at h

theorem progFree_resolve_list_with (r : Value → Except Err Value) (hr : ∀ v, progFree (r v)) :
    ∀ xs, progFree (resolve_list_with r xs) := by
  intro xs
  induction xs with
  | nil => exact progFree_ok []
  | cons x rest ih =>
    simp only [resolve_list_with]
    split
    · next e hx => exact progFree_transport e (hx ▸ hr x)
    · next rx hx =>
      split
      · next e hrest => exact hrest ▸ ih
      · exact progFree_ok _

theorem progFree_resolve_dict_entries_with (r : String → Value → Ann → Except Err Value)
    (hr : ∀ n v t, progFree (r n v t)) (name : String) (ka va : Ann) :
    ∀ es, progFree (resolve_dict_entries_with r name ka va es) := by
  intro es
  induction es with
  | nil => exact progFree_ok []
  | cons p rest ih =>
    obtain ⟨k, v⟩ := p
    simp only [resolve_dict_entries_with]
    split
    · exact progFree_not_prog (fun s hs => Err.noConfusion hs)
    · split
      · next e h1 => exact progFree_transport e (h1 ▸ hr (pyStr k) k ka)
      · next rk h1 =>
        split
        · next e h2 => exact progFree_transport e (h2 ▸ hr name v va)
        · next rv h2 =>
          split
          · next e h3 => exact h3 ▸ ih
          · exact progFree_ok _

theorem progFree_fill_defaults_with (r : String → Value → Ann → Except Err Value)
    (hr : ∀ n v t, progFree (r n v t)) (sch : Schema) :
    ∀ pending inst, progFree (fill_defaults_with r sch pending inst) := by
  intro pending
  induction pending with
  | nil => intro inst; exact progFree_ok inst
  | cons p rest ih =>
    intro inst
    obtain ⟨k, isset⟩ := p
    simp only [fill_defaults_with]
    split
    · exact ih inst
    · split
      · exact progFree_not_prog (fun s hs => Err.noConfusion hs)
      · next ty d heq =>
        split
        · next f =>
          split
          · next e h1 => exact progFree_transport e (h1 ▸ hr ("Default of " ++ k) (f ()) ty)
          · exact ih _
        · exact ih _

theorem progFree_init_loop_with (r : String → Value → Ann → Except Err Value)
    (hr : ∀ n v t, progFree (r n v t)) (sch : Schema) (hinv : aliasInv sch) :
    ∀ (pending : List (Value × Value)) (rset oset : List (String × Bool)) (inst : List (String × Value)),
      (∀ s, s ∈ sch.required.map Prod.fst → s ∈ rset.map Prod.fst) →
      (∀ s, s ∈ sch.optional.map Prod.fst → s ∈ oset.map Prod.fst) →
      progFree (init_loop_with r sch pending rset oset inst) := by
  intro pending
  induction pending with
  | nil =>
    intro rset oset inst hr2 ho2
    exact progFree_ok _
  | cons p rest ih =>
    intro rset oset inst hrk hok
    obtain ⟨key, v⟩ := p
    simp only [init_loop_with]
    split
    · next hal =>
      split
      · exact progFree_not_prog (fun s hs => Err.noConfusion hs)
      · exact ih rset oset inst hrk hok
    · next yamlname k hal =>
      have hpair : (yamlname, k) ∈ sch.aliasTab := by
        cases key with
        | vstr s2 =>
          simp only [aliasLookup] at hal
          cases hdl : dlookup s2 sch.aliasTab with
          | none => rw [hdl] at hal; simp at hal
          | some t2 =>
            rw [hdl] at hal
            simp at hal
            obtain ⟨hy, ht⟩ := hal
            subst hy
            subst ht
            exact dlookup_mem s2 sch.aliasTab t2 hdl
        | vnone => simp [aliasLookup] at hal
        | vbool b => simp [aliasLookup] at hal
        | vint n => simp [aliasLookup] at hal
        | vfloat q => simp [aliasLookup] at hal
        | vlist xs => simp [aliasLookup] at hal
        | vdict es => simp [aliasLookup] at hal
        | vinst c fs => simp [aliasLookup] at hal
      have hkmem2 : k ∈ rset.map Prod.fst ∨ k ∈ oset.map Prod.fst := by
        rcases hinv (yamlname, k) hpair with h | h
        · exact Or.inl (hrk k h)
        · exact Or.inr (hok k h)
      split
      · next e hcs => exact progFree_transport e (hcs ▸ progFree_classifySource sch k rset oset hkmem2)
      · next ty rset2 oset2 hcs =>
        obtain ⟨hck1, hck2⟩ := classifySource_keys sch k rset oset ty rset2 oset2 hcs
        split
        · exact progFree_not_prog (fun s hs => Err.noConfusion hs)
        · split
          · next e hco => exact progFree_transport e (hco ▸ progFree_checkOptions sch k v)
          · next u hco =>
            split
            · next e hrv => exact progFree_transport e (hrv ▸ hr yamlname v ty)
            · next rv hrv =>
              exact ih rset2 oset2 (dinsert k rv inst)
                (fun s hs => hck1 s (hrk s hs)) (fun s hs => hck2 s (hok s hs))

theorem progFree_init_body_with (r : String → Value → Ann → Except Err Value)
    (hr : ∀ n v t, progFree (r n v t)) (sch : Schema) (hinv : aliasInv sch)
    (d : List (Value × Value)) : progFree (init_body_with r sch d) := by
  simp only [init_body_with]
  split
  · next e hl =>
    have h2 := progFree_init_loop_with r hr sch hinv d
      (sch.required.map (fun p => (p.1, false))) (sch.optional.map (fun p => (p.1, false))) []
      (fun s hs => by simpa using hs) (fun s hs => by simpa using hs)
    exact progFree_transport e (hl ▸ h2)
  · next rset oset inst hl =>
    split
    · next e hcr =>
      exact progFree_transport e (hcr ▸ progFree_checkRequired sch.name sch.ignoreMissing rset)
    · next u hcr =>
      exact progFree_fill_defaults_with r hr sch oset inst

theorem progFree_resolve_type (env : List Schema) (henv : ∀ sch ∈ env, aliasInv sch) :
    ∀ fuel name v t, progFree (resolve_type env fuel name v t) := by
  intro fuel
  induction fuel with
  | zero =>
    intro name v t
    exact progFree_not_prog (fun s hs => Err.noConfusion hs)
  | succ fuel ih =>
    intro name v t
    simp only [resolve_type]
    split
    · exact progFree_ok _
    · split
      · exact progFree_ok _
      · split
        · split
          · exact progFree_ok _
          · exact progFree_not_prog (fun s hs => Err.noConfusion hs)
        · split
          · split
            · exact progFree_ok _
            · exact progFree_not_prog (fun s hs => Err.noConfusion hs)
          · split
            · split
              · exact progFree_ok _
              · exact progFree_not_prog (fun s hs => Err.noConfusion hs)
            · split
              · split
                · exact progFree_ok _
                · exact progFree_not_prog (fun s hs => Err.noConfusion hs)
              · split
                · -- ClassResolver branch
                  split
                  · -- value is a dict: dispatch on the target class
                    split
                    · -- a registered class: look it up in the environment
                      split
                      · next sch hget =>
                        split
                        · -- construct the nested instance
                          split
                          · next e heq =>
                            have hsch : sch ∈ env := List.get?_mem hget
                            exact progFree_transport e
                              (heq ▸ progFree_init_body_with (resolve_type env fuel) (ih) sch (henv sch hsch) _)
                          · exact progFree_ok _
                        · exact progFree_not_prog (fun s hs => Err.noConfusion hs)
                      · exact progFree_not_prog (fun s hs => Err.noConfusion hs)
                    · exact progFree_not_prog (fun s hs => Err.noConfusion hs)
                  · exact progFree_not_prog (fun s hs => Err.noConfusion hs)
                · -- ListResolver and DictResolver dispatch
                  split
                  · -- parameterized list target
                    split
                    · split
                      · next e heq =>
                        exact progFree_transport e
                          (heq ▸ progFree_resolve_list_with _ (fun v2 => ih name v2 _) _)
                      · exact progFree_ok _
                    · exact progFree_not_prog (fun s hs => Err.noConfusion hs)
                  · -- parameterized dict target
                    split
                    · split
                      · next e heq =>
                        exact progFree_transport e
                          (heq ▸ progFree_resolve_dict_entries_with _ (fun n2 v2 t2 => ih n2 v2 t2) _ _ _ _)
                      · exact progFree_ok _
                    · exact progFree_not_prog (fun s hs => Err.noConfusion hs)
                  · exact progFree_not_prog (fun s hs => Err.noConfusion hs)

/--
Claim C10: every alias-table entry of a schema produced by registration
maps an external key to an internal name registered as Required or
Optional, and consequently no construction call against such a schema
(in an environment of registration-produced schemas) can ever return
the defensive Programming error of _init.
-/
theorem c10_prog_error_unreachable (env : List Schema) (fuel fuel2 : Nat) (c : ClsDecl) (sch : Schema)
    (henv : ∀ s ∈ env, aliasInv s)
    (hw : wrap env fuel c = .ok sch) :
    aliasInv sch
    ∧ ∀ args kwargs msg, init env fuel2 sch args kwargs ≠ .error (.progError msg) := by
  have hinv := wrap_aliasInv env fuel c sch hw
  refine ⟨hinv, ?_⟩
  intro args kwargs msg
  have hchose : progFree (chose_init_source sch.name args kwargs) := by
    simp only [chose_init_source]
    split
    · exact progFree_not_prog (fun s hs => Err.noConfusion hs)
    · split
      · split
        · exact progFree_ok _
        · exact progFree_not_prog (fun s hs => Err.noConfusion hs)
      · exact progFree_ok _
  simp only [init]
  split
  · next e hcs =>
    exact progFree_transport e (hcs ▸ hchose) msg
  · next d hcs =>
    have h2 : progFree (init_body env fuel2 sch d) :=
      progFree_init_body_with (resolve_type env fuel2)
        (progFree_resolve_type env henv fuel2) sch hinv d
    exact h2 msg

/-- Concrete instantiation of the C10 theorem: a registered one-field
class satisfies the alias invariant and its construction never returns
the Programming error. -/
theorem c10_witness :
    aliasInv ⟨"A", [("a", Ann.prim PKind.pInt)], [], [("a", "a")], [], false, false⟩
    ∧ init [] 1 ⟨"A", [("a", Ann.prim PKind.pInt)], [], [("a", "a")], [], false, false⟩ [] []
        ≠ .error (.progError "a") := by
  have h := c10_prog_error_unreachable [] 1 1 ⟨"A", [("a", .prim .pInt, .noDefault)], false, false⟩
    ⟨"A", [("a", Ann.prim PKind.pInt)], [], [("a", "a")], [], false, false⟩
    (fun s hs => absurd hs (List.not_mem_nil s)) rfl
  exact ⟨h.1, h.2 [] [] "a"⟩

end Yamlcls
